import Mathlib

/-
Verification of the Invoice-AI background job queue and extraction pipeline.

This file gives a shallow embedding, in Lean 4, of the core logic of
`backend/fastapi/job_queue.py` and `backend/fastapi/invoice_processor.py`,
and proves (or refutes) the specification claims about that logic.

Modelling conventions:
- Python dicts keyed by job id (`self.jobs`) become a `List Job` kept in
  insertion order; assignment `self.jobs[id] = job` becomes `dictInsert`
  (replace-in-place when the key exists, append otherwise), matching
  CPython's insertion-ordered dict semantics.
- `datetime.utcnow().isoformat()` timestamps are modelled as `Nat` clock
  values supplied by the caller; ISO-8601 strings compare chronologically,
  so `createdAt` ordering is preserved by this abstraction.
- `uuid.uuid4()` becomes a caller-supplied fresh identifier.
- Python truthiness tests (`if error_message:` / `if result:`) are modelled
  explicitly: an empty string / empty dict is falsy.
- Handler bodies perform external I/O; a handler invocation is modelled by
  its outcome, an `Except String Dict` value supplied to `processJob`
  (exception message or returned dict).
-/

set_option autoImplicit false

namespace InvoiceAI

/-- Python values as they appear in the small dicts this code manipulates:
the JSON-ish payloads and extraction results (`None`, strings, numbers). -/
inductive PyVal where
  | null : PyVal
  | str : String → PyVal
  | num : ℚ → PyVal
  deriving DecidableEq, Repr

/-- An insertion-ordered Python dict with string keys. -/
abbrev Dict := List (String × PyVal)

/-! ### Python str helpers

The Python string methods the source uses (`strip`, `startswith`, `split`,
`replace`) are modelled directly on the character list of the string, so
that every definition evaluates inside the kernel. -/

/-- Python `s.strip()` on a character list: drop leading and trailing
whitespace, keep interior whitespace. -/
def stripList (cs : List Char) : List Char :=
  ((cs.dropWhile Char.isWhitespace).reverse.dropWhile Char.isWhitespace).reverse

/-- Python `s.strip()`. -/
def pyStrip (s : String) : String := String.mk (stripList s.toList)

/-- Python `s.startswith(pre)`. -/
def pyStartsWith (s pre : String) : Bool := pre.toList.isPrefixOf s.toList

/-- Embeds `class JobStatus(str, Enum)`. -/
inductive JobStatus where
  | pending | processing | completed | failed | retrying | cancelled
  deriving DecidableEq, Repr

/-- Embeds `class JobPriority(str, Enum)`. -/
inductive JobPriority where
  | low | normal | high | critical
  deriving DecidableEq, Repr

/-- Embeds the `@dataclass Job` of job_queue.py. -/
structure Job where
  id : Nat
  type : String
  payload : Dict
  status : JobStatus
  priority : JobPriority
  attempts : Nat
  maxRetries : Nat
  errorMessage : Option String
  result : Option Dict
  createdAt : Nat
  startedAt : Option Nat
  completedAt : Option Nat
  deriving DecidableEq, Repr

/-- Embeds the in-memory state of `class JobQueue`: the dict `self.jobs`,
as a list in insertion order. -/
structure JobQueue where
  jobs : List Job
  deriving DecidableEq, Repr

/-- Python dict assignment `jobs[id] = job`: replace in place if the key is
present, append otherwise. -/
def dictInsert (l : List Job) (j : Job) : List Job :=
  if l.any (fun k => k.id == j.id) then
    l.map (fun k => if k.id == j.id then j else k)
  else l ++ [j]

/-- Embeds `JobQueue.add_job` (job_queue.py lines 74-118): build a `Job`
with status PENDING, attempts 0, store it under a fresh id, return the id.
There is no handler-registration check of any kind in the source.
`freshId` models `uuid.uuid4()`, `now` models `datetime.utcnow()`. -/
def addJob (q : JobQueue) (jobType : String) (payload : Dict)
    (priority : JobPriority) (maxRetries : Nat) (freshId : Nat) (now : Nat) :
    JobQueue × Nat :=
  let job : Job :=
    { id := freshId, type := jobType, payload := payload,
      status := JobStatus.pending, priority := priority, attempts := 0,
      maxRetries := maxRetries, errorMessage := none, result := none,
      createdAt := now, startedAt := none, completedAt := none }
  ({ jobs := dictInsert q.jobs job }, freshId)

/-- Embeds `self.jobs.get(job_id)`. -/
def findJob (q : JobQueue) (jobId : Nat) : Option Job :=
  q.jobs.find? (fun j => j.id == jobId)

/-- Replace the stored job that has `j.id` by `j` (mutation of the dict
entry in place). -/
def setJob (q : JobQueue) (j : Job) : JobQueue :=
  { jobs := q.jobs.map (fun k => if k.id == j.id then j else k) }

/-- Python truthiness of an optional string (`if error_message:`):
`None` and the empty string are falsy. -/
def truthyStr : Option String → Bool
  | none => false
  | some s => s ≠ ""

/-- Python truthiness of an optional dict (`if result:`):
`None` and the empty dict are falsy. -/
def truthyDict : Option Dict → Bool
  | none => false
  | some d => d ≠ []

/-- The field mutations performed by `JobQueue.update_job_status`
(job_queue.py lines 124-142) on the job it found, written field-wise:
`status` is set unconditionally; `error_message` / `result` only when the
argument is truthy; `started_at` on first entry to PROCESSING
(`if status == PROCESSING and not job.started_at`); `completed_at` on the
`elif status in [COMPLETED, FAILED, CANCELLED]` branch, i.e. when the
first condition did not fire.  The sequential mutations of the source
touch disjoint fields, so this field-wise form is the same function. -/
def applyUpdate (j : Job) (status : JobStatus) (errorMessage : Option String)
    (result : Option Dict) (now : Nat) : Job :=
  { j with
    status := status,
    errorMessage := if truthyStr errorMessage then errorMessage else j.errorMessage,
    result := if truthyDict result then result else j.result,
    startedAt :=
      if status = JobStatus.processing ∧ j.startedAt = none then some now
      else j.startedAt,
    completedAt :=
      if ¬(status = JobStatus.processing ∧ j.startedAt = none) ∧
          (status = JobStatus.completed ∨ status = JobStatus.failed ∨
            status = JobStatus.cancelled) then some now
      else j.completedAt }

/-- Embeds `JobQueue.update_job_status`: look the job up by id (no-op with
a warning when absent), mutate its fields per `applyUpdate`. -/
def updateJobStatus (q : JobQueue) (jobId : Nat) (status : JobStatus)
    (errorMessage : Option String) (result : Option Dict) (now : Nat) : JobQueue :=
  match findJob q jobId with
  | none => q
  | some j => setJob q (applyUpdate j status errorMessage result now)

/-- The job types `process_job` routes to a handler (job_queue.py lines
206-213); any other type raises `ValueError('Unknown job type: ...')`. -/
def registeredTypes : List String :=
  ["process_invoice", "email_ingestion", "generate_report", "export_data"]

/-- The routing step of `process_job`: a registered type yields the
handler's own outcome, an unregistered type raises before any handler
runs. -/
def routeHandler (jobType : String) (handlerOutcome : Except String Dict) :
    Except String Dict :=
  if jobType ∈ registeredTypes then handlerOutcome
  else Except.error ("Unknown job type: " ++ jobType)

/-- Embeds `JobQueue.process_job` (job_queue.py lines 189-236) acting on
the job stored under `jobId`: increment `attempts`, transition to
PROCESSING, run the handler; on success transition to COMPLETED with the
result; on failure retry (RETRYING then back to PENDING) while
`attempts < max_retries`, else transition to FAILED. Returns the updated
queue and the boolean the Python function returns. -/
def processJob (q : JobQueue) (jobId : Nat)
    (handlerOutcome : Except String Dict) (now : Nat) : JobQueue × Bool :=
  match findJob q jobId with
  | none => (q, false)
  | some job0 =>
    let job1 := { job0 with attempts := job0.attempts + 1 }
    let q1 := setJob q job1
    let q2 := updateJobStatus q1 jobId JobStatus.processing none none now
    match routeHandler job1.type handlerOutcome with
    | Except.ok result =>
      (updateJobStatus q2 jobId JobStatus.completed none (some result) now, true)
    | Except.error msg =>
      if job1.attempts < job1.maxRetries then
        (updateJobStatus
          (updateJobStatus q2 jobId JobStatus.retrying (some msg) none now)
          jobId JobStatus.pending none none now, false)
      else
        (updateJobStatus q2 jobId JobStatus.failed (some msg) none now, false)

/-- The sort key of `get_next_job`: `priority_order` dict composed with
`created_at` (job_queue.py lines 166-184). -/
def priorityOrder : JobPriority → Nat
  | JobPriority.critical => 0
  | JobPriority.high => 1
  | JobPriority.normal => 2
  | JobPriority.low => 3

/-- The tuple key `(priority_order[j.priority], j.created_at)`. -/
def jobKey (j : Job) : Nat × Nat := (priorityOrder j.priority, j.createdAt)

/-- Strict lexicographic comparison of sort keys, as Python tuple `<`. -/
def keyLt (a b : Nat × Nat) : Bool :=
  a.1 < b.1 || (a.1 == b.1 && a.2 < b.2)

/-- One step of taking the head of Python's stable sort: keep the earlier
element unless the later one has a strictly smaller key. Folding this over
the pending list yields exactly `sorted(pending_jobs, key=...)[0]`. -/
def pickMin (acc : Option Job) (j : Job) : Option Job :=
  match acc with
  | none => some j
  | some b => if keyLt (jobKey j) (jobKey b) then some j else some b

/-- Embeds `JobQueue.get_next_job` (job_queue.py lines 158-187): filter the
PENDING jobs, return the head of the stable sort by
`(priority rank, created_at)`, or `none` when no job is pending. -/
def getNextJob (q : JobQueue) : Option Job :=
  (q.jobs.filter (fun j => j.status == JobStatus.pending)).foldl pickMin none

/-- The full state effect of a `get_next_job` call: the method only reads
`self.jobs` (list comprehension plus `sorted`, which copies), so the queue
component of the result is the unchanged input state. -/
def getNextJobOp (q : JobQueue) : JobQueue × Option Job :=
  (q, getNextJob q)

/-- Iterate `process_job` on a job whose handler fails on every attempt
(the scenario of the retry-exhaustion claims). -/
def runAlwaysFail (q : JobQueue) (jobId : Nat) (msg : String) (now : Nat) :
    Nat → JobQueue
  | 0 => q
  | k + 1 => runAlwaysFail (processJob q jobId (Except.error msg) now).1 jobId msg now k

/-! ### Extraction pipeline (invoice_processor.py)

The regexes of `_extract_with_regex` are concatenations of case-insensitive
literals and character classes with greedy counted repetition, with the
single capture group at the end of each pattern.  We embed exactly that
fragment of `re` below: a pattern is a list of tokens, matched
left-to-right with greedy repetition and backtracking over repetition
counts, and `reSearch` scans start positions left to right as `re.search`
does. -/

/-- One token of a pattern: a case-insensitive literal, or a character
class with a minimum and optional maximum repetition count
(`[..]* / [..]+ / [..]? / [..]{lo,hi}`). -/
inductive Tok where
  | lit : List Char → Tok
  | cls : (Char → Bool) → Nat → Option Nat → Tok

/-- Match a literal case-insensitively (re.IGNORECASE), returning the
consumed characters and the rest. -/
def matchLitCI : List Char → List Char → Option (List Char × List Char)
  | [], cs => some ([], cs)
  | _ :: _, [] => none
  | p :: ps, c :: cs =>
    if p.toLower == c.toLower then
      (matchLitCI ps cs).map (fun r => (c :: r.1, r.2))
    else none

/-- Take exactly `n` characters satisfying `p`. -/
def takeExact (p : Char → Bool) : Nat → List Char → Option (List Char × List Char)
  | 0, cs => some ([], cs)
  | _ + 1, [] => none
  | n + 1, c :: cs =>
    if p c then (takeExact p n cs).map (fun r => (c :: r.1, r.2)) else none

/-- The candidate repetition counts for a greedy class with bounds
`lo ≤ hi`, longest first: `[hi, hi-1, ..., lo]`. -/
def greedyLens (lo hi : Nat) : List Nat :=
  (List.range (hi + 1 - lo)).map (fun i => hi - i)

/-- Match a token list at the start of the input, returning consumed
characters and rest.  A class is greedy with backtracking: the longest
repetition count whose continuation also matches wins, as in `re`. -/
def runToks : List Tok → List Char → Option (List Char × List Char)
  | [], cs => some ([], cs)
  | Tok.lit ps :: ts, cs =>
    match matchLitCI ps cs with
    | none => none
    | some (e, rest) => (runToks ts rest).map (fun r => (e ++ r.1, r.2))
  | Tok.cls p lo max :: ts, cs =>
    let hi := match max with
      | none => cs.length
      | some m => min m cs.length
    (greedyLens lo hi).findSome? (fun n =>
      match takeExact p n cs with
      | none => none
      | some (e, rest) => (runToks ts rest).map (fun r => (e ++ r.1, r.2)))

/-- A search pattern: a prefix followed by the capture group's tokens
(each regex in the source has its single group at the end). -/
structure Pat where
  pre : List Tok
  cap : List Tok

/-- Match the pattern anchored at this position, returning the capture
group's text (`match.group(1)`). -/
def searchAt (pat : Pat) (cs : List Char) : Option String :=
  match runToks pat.pre cs with
  | none => none
  | some (_, rest) =>
    match runToks pat.cap rest with
    | none => none
    | some (e, _) => some (String.mk e)

/-- Embeds `re.search(pattern, text, re.IGNORECASE)`: try every start
position left to right. -/
def reSearch (pat : Pat) : List Char → Option String
  | [] => searchAt pat []
  | c :: cs =>
    match searchAt pat (c :: cs) with
    | some r => some r
    | none => reSearch pat cs

/-- Character class `\s`. -/
def wsChar (c : Char) : Bool := c.isWhitespace

/-- Character class `[A-Z0-9-]` under re.IGNORECASE. -/
def invNumChar (c : Char) : Bool := c.isAlphanum || c == '-'

/-- Character class `[\d,]`. -/
def amtChar (c : Char) : Bool := c.isDigit || c == ','

/-- Character class slash-or-dash of the date patterns. -/
def slashDash (c : Char) : Bool := c == '/' || c == '-'

/-- Character class `[-\s]`. -/
def dashWs (c : Char) : Bool := c == '-' || c.isWhitespace

/-- Token `\s*`. -/
def wsStar : Tok := Tok.cls wsChar 0 none

/-- Token for an optional single character (`#?`, `:?`, `\$?`, `\.?`). -/
def optTok (p : Char → Bool) : Tok := Tok.cls p 0 (some 1)

/-- The ordered `invoice_patterns` list of `_extract_with_regex`:
`Invoice\s*#?\s*:?\s*([A-Z0-9-]+)`, `Invoice\s*Number\s*:?\s*([A-Z0-9-]+)`,
`INV[-\s]*([A-Z0-9-]+)`. -/
def invoicePatterns : List Pat :=
  [ ⟨[Tok.lit "Invoice".toList, wsStar, optTok (fun c => c == '#'), wsStar,
      optTok (fun c => c == ':'), wsStar], [Tok.cls invNumChar 1 none]⟩
  , ⟨[Tok.lit "Invoice".toList, wsStar, Tok.lit "Number".toList, wsStar,
      optTok (fun c => c == ':'), wsStar], [Tok.cls invNumChar 1 none]⟩
  , ⟨[Tok.lit "INV".toList, Tok.cls dashWs 0 none], [Tok.cls invNumChar 1 none]⟩ ]

/-- The capture of the date patterns: one or two digits, slash or dash,
one or two digits, slash or dash, two to four digits. -/
def dateCap : List Tok :=
  [ Tok.cls Char.isDigit 1 (some 2), Tok.cls slashDash 1 (some 1)
  , Tok.cls Char.isDigit 1 (some 2), Tok.cls slashDash 1 (some 1)
  , Tok.cls Char.isDigit 2 (some 4) ]

/-- The ordered `date_patterns` list of `_extract_with_regex`. -/
def datePatterns : List Pat :=
  [ ⟨[Tok.lit "Date".toList, wsStar, optTok (fun c => c == ':'), wsStar], dateCap⟩
  , ⟨[Tok.lit "Invoice".toList, wsStar, Tok.lit "Date".toList, wsStar,
      optTok (fun c => c == ':'), wsStar], dateCap⟩
  , ⟨[], dateCap⟩ ]

/-- The capture of the amount patterns: `([\d,]+\.?\d*)`. -/
def amountCap : List Tok :=
  [Tok.cls amtChar 1 none, optTok (fun c => c == '.'), Tok.cls Char.isDigit 0 none]

/-- The ordered `amount_patterns` list of `_extract_with_regex`:
`Total\s*:?\s*\$?\s*(...)`, `Amount\s*Due\s*:?\s*\$?\s*(...)`,
`Grand\s*Total\s*:?\s*\$?\s*(...)`. -/
def amountPatterns : List Pat :=
  [ ⟨[Tok.lit "Total".toList, wsStar, optTok (fun c => c == ':'), wsStar,
      optTok (fun c => c == '$'), wsStar], amountCap⟩
  , ⟨[Tok.lit "Amount".toList, wsStar, Tok.lit "Due".toList, wsStar,
      optTok (fun c => c == ':'), wsStar, optTok (fun c => c == '$'), wsStar], amountCap⟩
  , ⟨[Tok.lit "Grand".toList, wsStar, Tok.lit "Total".toList, wsStar,
      optTok (fun c => c == ':'), wsStar, optTok (fun c => c == '$'), wsStar], amountCap⟩ ]

/-- The per-field loop of `_extract_with_regex`: try the patterns in order,
break on the first that matches. -/
def firstMatch : List Pat → String → Option String
  | [], _ => none
  | p :: ps, text =>
    match reSearch p text.toList with
    | some r => some r
    | none => firstMatch ps text

/-- Digit string to number. -/
def digitsToNat (s : List Char) : Nat :=
  s.foldl (fun a c => a * 10 + (c.toNat - '0'.toNat)) 0

/-- Split a character list on the dot character (Python `s.split('.')`). -/
def splitDot : List Char → List (List Char)
  | [] => [[]]
  | '.' :: rest => [] :: splitDot rest
  | c :: rest =>
    match splitDot rest with
    | [] => [[c]]
    | chunk :: chunks => (c :: chunk) :: chunks

/-- Models Python `float(s)` on the strings the amount capture can produce
after `replace(',', '')`: digit strings with at most one dot.  `float`
raises (modelled as `none`) on the empty string and on a lone dot. -/
def parseFloat (s : String) : Option ℚ :=
  match splitDot s.toList with
  | [a] =>
    if a ≠ [] ∧ a.all Char.isDigit then some (mkRat (digitsToNat a) 1) else none
  | [a, b] =>
    if (a ≠ [] ∨ b ≠ []) ∧ a.all Char.isDigit ∧ b.all Char.isDigit then
      some (mkRat (digitsToNat a * 10 ^ b.length + digitsToNat b) (10 ^ b.length))
    else none
  | _ => none

/-- Embeds `InvoiceProcessor._extract_with_regex` (invoice_processor.py
lines 320-373): start from the fixed dict, fill `invoice_number`,
`invoice_date`, `total_amount` with the first pattern match per field
(amount parsed through `float` with commas removed, failures swallowed),
leave `vendor_name` as None and `currency` as "USD". -/
def extractWithRegex (text : String) : Dict :=
  let invNum := firstMatch invoicePatterns text
  let invDate := firstMatch datePatterns text
  let amt := (firstMatch amountPatterns text).bind
    (fun s => parseFloat (String.mk (s.toList.filter (fun c => c ≠ ','))))
  [ ("vendor_name", PyVal.null)
  , ("invoice_number", match invNum with | some s => PyVal.str s | none => PyVal.null)
  , ("invoice_date", match invDate with | some s => PyVal.str s | none => PyVal.null)
  , ("total_amount", match amt with | some q => PyVal.num q | none => PyVal.null)
  , ("currency", PyVal.str "USD") ]

/-! ### PDF / file text extraction (invoice_processor.py lines 171-247)

A PDF document is modelled by its per-page collaborator outputs: for each
page the embedded text layer `page.extract_text()` returns and the text
`pytesseract.image_to_string` returns for that page's 300-DPI raster.  An
image is modelled by its OCR collaborator outcome.  I/O failures of the
collaborators (PyPDF2 parse errors, PIL/Tesseract errors) are modelled as
`Except.error` outcomes carried by the document. -/

/-- The DPI passed to `convert_from_path(tmp_path, dpi=300)`. -/
def ocrDpi : Nat := 300

/-- The native-text accumulation loop of `_extract_text_from_pdf`
(lines 194-197): append `page_text + "\n"` for every page whose extracted
text is non-empty. -/
def nativeText (pages : List (String × String)) : String :=
  pages.foldl (fun acc p => if p.1 ≠ "" then acc ++ p.1 ++ "\n" else acc) ""

/-- The OCR accumulation loop of `_extract_text_from_pdf` (lines 217-221):
append `page_text + "\n"` for every page's OCR output, in page order. -/
def ocrPdfText (pages : List (String × String)) : String :=
  pages.foldl (fun acc p => acc ++ p.2 ++ "\n") ""

/-- Embeds `InvoiceProcessor._extract_text_from_pdf` (lines 187-231):
return the embedded text layer when it is truthy and its stripped length
exceeds 50 characters, else rasterize and OCR every page.  The boolean
records whether the OCR stage ran. -/
def extractTextFromPdf (pages : List (String × String)) : String × Bool :=
  let text := nativeText pages
  if text ≠ "" ∧ 50 < (pyStrip text).length then (text, false)
  else (ocrPdfText pages, true)

/-- Errors `_extract_text_from_file` and its callees can raise, kept
apart: the unsupported-extension error (line 181) versus a collaborator
failure propagated from the PDF or image branch. -/
inductive ExtractErr where
  | unsupportedFormat : String → ExtractErr
  | stageFailure : String → ExtractErr
  deriving DecidableEq, Repr

/-- Decidable equality for `Except`, needed to evaluate the embedded
operations on concrete documents. -/
instance exceptDecEq {ε α : Type} [DecidableEq ε] [DecidableEq α] :
    DecidableEq (Except ε α) := fun x y =>
  match x, y with
  | Except.ok a, Except.ok b =>
    if h : a = b then isTrue (congrArg Except.ok h)
    else isFalse (fun hh => h (by injection hh))
  | Except.ok _, Except.error _ => isFalse (fun hh => Except.noConfusion hh)
  | Except.error _, Except.ok _ => isFalse (fun hh => Except.noConfusion hh)
  | Except.error e, Except.error f =>
    if h : e = f then isTrue (congrArg Except.error h)
    else isFalse (fun hh => h (by injection hh))

/-- The collaborator outcomes for one document's bytes: what PyPDF2 /
pdf2image / pytesseract would produce if the bytes are read as a PDF
(per-page native text and OCR text), and what PIL + pytesseract would
produce if they are read as an image. -/
structure DocBytes where
  pdfPages : Except String (List (String × String))
  imageOcr : Except String String
  deriving DecidableEq, Repr

/-- The image extensions accepted by `_extract_text_from_file`
(line 178). -/
def imageExts : List String := [".png", ".jpg", ".jpeg", ".tiff", ".bmp"]

/-- Embeds `InvoiceProcessor._extract_text_from_file` (lines 171-185):
dispatch on the lowercased extension (`Path(file_path).suffix.lower()`);
raise the unsupported-format error for any other extension before any
extraction stage runs. -/
def extractTextFromFile (ext : String) (doc : DocBytes) : Except ExtractErr String :=
  if ext = ".pdf" then
    match doc.pdfPages with
    | Except.ok pages => Except.ok (extractTextFromPdf pages).1
    | Except.error e => Except.error (ExtractErr.stageFailure e)
  else if ext ∈ imageExts then
    match doc.imageOcr with
    | Except.ok t => Except.ok t
    | Except.error e => Except.error (ExtractErr.stageFailure e)
  else
    Except.error (ExtractErr.unsupportedFormat ("Unsupported file type: " ++ ext))

/-! ### AI structuring with regex fallback (invoice_processor.py 249-318) -/

/-- Python `s.split(sep)` for the three-backtick separator, on character
lists: non-overlapping left-to-right splitting. -/
def splitFence : List Char → List (List Char)
  | [] => [[]]
  | '`' :: '`' :: '`' :: rest => [] :: splitFence rest
  | c :: rest =>
    match splitFence rest with
    | [] => [[c]]
    | chunk :: chunks => (c :: chunk) :: chunks

/-- The code-fence stripping of `_extract_with_gemini` (lines 303-307):
when the response starts with three backticks, keep the segment after the
first fence, drop a leading "json" tag, and strip whitespace. -/
def stripCodeFence (s : String) : String :=
  if pyStartsWith s "```" then
    let s1 := (splitFence s.toList).getD 1 []
    let s2 := if "json".toList.isPrefixOf s1 then s1.drop 4 else s1
    String.mk (stripList s2)
  else s

/-- Embeds `InvoiceProcessor._extract_with_gemini` (lines 257-318).  The
provider call is modelled by its outcome `providerResp` (response text or
raised error) and `json.loads` by the parameter `jsonParse` (`none` models
a `JSONDecodeError`).  Any error — provider failure or parse failure — is
caught and answered with `_extract_with_regex` on the same text. -/
def extractWithGemini (jsonParse : String → Option Dict)
    (providerResp : Except String String) (text : String) : Dict :=
  match providerResp with
  | Except.error _ => extractWithRegex text
  | Except.ok raw =>
    match jsonParse (stripCodeFence (pyStrip raw)) with
    | some d => d
    | none => extractWithRegex text

/-- Embeds `InvoiceProcessor._extract_invoice_data` (lines 249-255):
Gemini when enabled, regex otherwise. -/
def extractInvoiceData (geminiEnabled : Bool) (jsonParse : String → Option Dict)
    (providerResp : Except String String) (text : String) : Dict :=
  if geminiEnabled then extractWithGemini jsonParse providerResp text
  else extractWithRegex text

/-- The failure `process_invoice` raises when the extracted text is too
short (line 89). -/
inductive PipeErr where
  | noExtractableText
  deriving DecidableEq, Repr

/-- Embeds the structuring part of `InvoiceProcessor.process_invoice`
(lines 86-94): reject the extracted text when it is falsy or its stripped
length is below 10 characters, otherwise run the structuring stage on
it. -/
def processInvoiceFromText (geminiEnabled : Bool) (jsonParse : String → Option Dict)
    (providerResp : Except String String) (extractedText : String) :
    Except PipeErr Dict :=
  if extractedText = "" ∨ (pyStrip extractedText).length < 10 then
    Except.error PipeErr.noExtractableText
  else
    Except.ok (extractInvoiceData geminiEnabled jsonParse providerResp extractedText)

/-- The number of non-whitespace characters of a string — the metric the
specification's minimum-content sentence names (the code uses the length
of the stripped string instead, which also counts interior whitespace). -/
def nonWsCount (s : String) : Nat :=
  (s.toList.filter (fun c => ¬ c.isWhitespace)).length

/-! ### Selection lemmas (get_next_job) -/

/-- Lexicographic order on sort keys, the propositional counterpart of the
Python tuple comparison used by `sorted`. -/
def keyLE (a b : Nat × Nat) : Prop := a.1 < b.1 ∨ (a.1 = b.1 ∧ a.2 ≤ b.2)

theorem keyLt_false_iff {a b : Nat × Nat} : keyLt a b = false ↔ keyLE b a := by
  simp only [keyLt, keyLE, Bool.or_eq_false_iff, Bool.and_eq_false_iff,
    decide_eq_false_iff_not, beq_eq_false_iff_ne, ne_eq]
  omega

theorem keyLt_true_keyLE {a b : Nat × Nat} (h : keyLt a b = true) : keyLE a b := by
  simp only [keyLt, Bool.or_eq_true, Bool.and_eq_true, decide_eq_true_eq,
    beq_iff_eq] at h
  simp only [keyLE]
  omega

theorem keyLE_refl (a : Nat × Nat) : keyLE a a := Or.inr ⟨rfl, Nat.le_refl _⟩

theorem keyLE_trans {a b c : Nat × Nat} (h1 : keyLE a b) (h2 : keyLE b c) :
    keyLE a c := by
  simp only [keyLE] at h1 h2 ⊢
  omega

theorem foldl_pickMin_isSome (l : List Job) (b : Job) :
    (l.foldl pickMin (some b)).isSome = true := by
  induction l generalizing b with
  | nil => rfl
  | cons x xs ih =>
    simp only [List.foldl_cons, pickMin]
    split <;> exact ih _

theorem foldl_pickMin_none_iff (l : List Job) :
    l.foldl pickMin none = none ↔ l = [] := by
  cases l with
  | nil => simp
  | cons x xs =>
    simp only [List.foldl_cons, pickMin]
    constructor
    · intro h
      have hs := foldl_pickMin_isSome xs x
      rw [h] at hs
      exact absurd hs (by simp)
    · intro h
      exact absurd h (by simp)

theorem foldl_pickMin_spec (l : List Job) : ∀ (acc : Option Job) (j : Job),
    l.foldl pickMin acc = some j →
    (acc = some j ∨ j ∈ l) ∧
    (∀ b, acc = some b → keyLE (jobKey j) (jobKey b)) ∧
    (∀ k ∈ l, keyLE (jobKey j) (jobKey k)) := by
  induction l with
  | nil =>
    intro acc j h
    simp only [List.foldl_nil] at h
    refine ⟨Or.inl h, ?_, ?_⟩
    · intro b hb
      rw [h] at hb
      cases hb
      exact keyLE_refl _
    · intro k hk
      cases hk
  | cons x xs ih =>
    intro acc j h
    simp only [List.foldl_cons] at h
    obtain ⟨hmem, hacc, hall⟩ := ih (pickMin acc x) j h
    cases acc with
    | none =>
      have hx : pickMin none x = some x := rfl
      rw [hx] at hmem hacc
      have hjx : keyLE (jobKey j) (jobKey x) := hacc x rfl
      refine ⟨?_, ?_, ?_⟩
      · cases hmem with
        | inl hh => exact Or.inr (by cases hh; exact List.mem_cons_self _ _)
        | inr hh => exact Or.inr (List.mem_cons_of_mem _ hh)
      · intro b hb
        cases hb
      · intro k hk
        cases List.mem_cons.mp hk with
        | inl hh => cases hh; exact hjx
        | inr hh => exact hall k hh
    | some b =>
      cases hkl : keyLt (jobKey x) (jobKey b) with
      | true =>
        have hx : pickMin (some b) x = some x := by simp [pickMin, hkl]
        rw [hx] at hmem hacc
        have hjx : keyLE (jobKey j) (jobKey x) := hacc x rfl
        have hxb : keyLE (jobKey x) (jobKey b) := keyLt_true_keyLE hkl
        refine ⟨?_, ?_, ?_⟩
        · cases hmem with
          | inl hh => exact Or.inr (by cases hh; exact List.mem_cons_self _ _)
          | inr hh => exact Or.inr (List.mem_cons_of_mem _ hh)
        · intro b' hb'
          cases hb'
          exact keyLE_trans hjx hxb
        · intro k hk
          cases List.mem_cons.mp hk with
          | inl hh => cases hh; exact hjx
          | inr hh => exact hall k hh
      | false =>
        have hx : pickMin (some b) x = some b := by simp [pickMin, hkl]
        rw [hx] at hmem hacc
        have hjb : keyLE (jobKey j) (jobKey b) := hacc b rfl
        have hbx : keyLE (jobKey b) (jobKey x) := keyLt_false_iff.mp hkl
        refine ⟨?_, ?_, ?_⟩
        · cases hmem with
          | inl hh => exact Or.inl hh
          | inr hh => exact Or.inr (List.mem_cons_of_mem _ hh)
        · intro b' hb'
          cases hb'
          exact hjb
        · intro k hk
          cases List.mem_cons.mp hk with
          | inl hh => cases hh; exact keyLE_trans hjb hbx
          | inr hh => exact hall k hh

/-- A selected job is a stored pending job. -/
theorem getNextJob_mem_pending (q : JobQueue) (j : Job)
    (h : getNextJob q = some j) : j ∈ q.jobs ∧ j.status = JobStatus.pending := by
  obtain ⟨hmem, -, -⟩ := foldl_pickMin_spec _ none j h
  cases hmem with
  | inl hh => cases hh
  | inr hh =>
    have := List.mem_filter.mp hh
    exact ⟨this.1, by simpa using this.2⟩

/-- A selected job has a lexicographically minimal key among the pending
jobs. -/
theorem getNextJob_min (q : JobQueue) (j : Job) (h : getNextJob q = some j) :
    ∀ k ∈ q.jobs, k.status = JobStatus.pending → keyLE (jobKey j) (jobKey k) := by
  obtain ⟨-, -, hall⟩ := foldl_pickMin_spec _ none j h
  intro k hk hks
  exact hall k (List.mem_filter.mpr ⟨hk, by simp [hks]⟩)

/-! ### Claim C2 -/

/-- C2: `get_next_job` returns `none` exactly when no job is pending, and
otherwise returns a stored pending job whose priority rank
(Critical < High < Normal < Low) is minimal among all pending jobs and
whose `createdAt` is minimal within that priority band; so a
higher-priority pending job is always returned before a lower-priority
one, and within one band an earlier-submitted pending job before a
later-submitted one. -/
theorem getNextJob_selects_min (q : JobQueue) :
    (getNextJob q = none ↔ ∀ j ∈ q.jobs, j.status ≠ JobStatus.pending) ∧
    (∀ j, getNextJob q = some j →
      j ∈ q.jobs ∧ j.status = JobStatus.pending ∧
      ∀ k ∈ q.jobs, k.status = JobStatus.pending →
        priorityOrder j.priority ≤ priorityOrder k.priority ∧
        (priorityOrder j.priority = priorityOrder k.priority →
          j.createdAt ≤ k.createdAt)) := by
  constructor
  · rw [getNextJob, foldl_pickMin_none_iff, List.filter_eq_nil_iff]
    constructor
    · intro h j hj hs
      exact h j hj (by simp [hs])
    · intro h j hj hs
      exact h j hj (by simpa using hs)
  · intro j h
    obtain ⟨hmem, hpend⟩ := getNextJob_mem_pending q j h
    refine ⟨hmem, hpend, ?_⟩
    intro k hk hks
    have := getNextJob_min q j h k hk hks
    simp only [keyLE, jobKey] at this
    omega

/-- A pending high-priority job submitted first. -/
def jobHigh : Job :=
  { id := 1, type := "process_invoice", payload := [],
    status := JobStatus.pending, priority := JobPriority.high, attempts := 0,
    maxRetries := 3, errorMessage := none, result := none, createdAt := 0,
    startedAt := none, completedAt := none }

/-- A pending critical-priority job submitted later. -/
def jobCrit : Job :=
  { id := 2, type := "process_invoice", payload := [],
    status := JobStatus.pending, priority := JobPriority.critical, attempts := 0,
    maxRetries := 3, errorMessage := none, result := none, createdAt := 1,
    startedAt := none, completedAt := none }

/-- The two-job queue of the spec's selection scenario. -/
def qSel : JobQueue := ⟨[jobHigh, jobCrit]⟩

/-- Witness for C2: on the queue holding a High job submitted first and a
Critical job submitted later, selection returns the Critical job and it is
minimal. -/
theorem getNextJob_selects_min_witness :
    jobCrit ∈ qSel.jobs ∧ jobCrit.status = JobStatus.pending ∧
    ∀ k ∈ qSel.jobs, k.status = JobStatus.pending →
      priorityOrder jobCrit.priority ≤ priorityOrder k.priority ∧
      (priorityOrder jobCrit.priority = priorityOrder k.priority →
        jobCrit.createdAt ≤ k.createdAt) :=
  (getNextJob_selects_min qSel).2 jobCrit (by decide)

/-! ### Claim C10 -/

/-- C10: a `get_next_job` call mutates no state — the queue after the call
is exactly the queue before it (the method only reads `self.jobs`), and a
returned job is still one of the stored jobs with status Pending: selection
does not claim the job, the Processing transition happens only inside
`process_job`. -/
theorem getNextJob_no_mutation (q : JobQueue) :
    (getNextJobOp q).1 = q ∧
    ∀ j, (getNextJobOp q).2 = some j → j ∈ q.jobs ∧ j.status = JobStatus.pending := by
  refine ⟨rfl, ?_⟩
  intro j h
  exact getNextJob_mem_pending q j h

/-- Witness for C10: on the concrete two-job queue the state component is
unchanged and the returned job is a stored pending job. -/
theorem getNextJob_no_mutation_witness :
    (getNextJobOp qSel).1 = qSel ∧
    jobCrit ∈ qSel.jobs ∧ jobCrit.status = JobStatus.pending :=
  ⟨(getNextJob_no_mutation qSel).1,
   (getNextJob_no_mutation qSel).2 jobCrit (by decide)⟩

/-! ### Tracking a job through queue transitions -/

/-- Replacing the stored job that carries the identifier `find?` located
makes the next `find?` for that identifier return the replacement. -/
theorem find?_map_replace (l : List Job) (i : Nat) (j j' : Job)
    (hl : l.find? (fun k => k.id == i) = some j) (hid : j'.id = j.id) :
    (l.map (fun k => if k.id == j'.id then j' else k)).find?
      (fun k => k.id == i) = some j' := by
  have hji : j.id = i := by
    have := List.find?_some hl
    simpa using this
  induction l with
  | nil => cases hl
  | cons x xs ih =>
    by_cases hx : x.id = i
    · rw [List.find?_cons_of_pos _ (by simp [hx])] at hl
      cases hl
      simp only [List.map_cons]
      rw [if_pos (by rw [hid]; simp)]
      exact List.find?_cons_of_pos _ (by simp [hid, hji])
    · rw [List.find?_cons_of_neg _ (by simp [hx])] at hl
      simp only [List.map_cons]
      rw [if_neg (by rw [hid, hji]; simpa using hx)]
      rw [List.find?_cons_of_neg _ (by simp [hx])]
      exact ih hl

/-- `setJob` with a job sharing the found job's identifier stores it. -/
theorem findJob_setJob (q : JobQueue) (i : Nat) (j j' : Job)
    (hfind : findJob q i = some j) (hid : j'.id = j.id) :
    findJob (setJob q j') i = some j' :=
  find?_map_replace q.jobs i j j' hfind hid

/-- `update_job_status` on a present job stores the `applyUpdate` image. -/
theorem findJob_update (q : JobQueue) (i : Nat) (st : JobStatus)
    (em : Option String) (res : Option Dict) (now : Nat) (j : Job)
    (hfind : findJob q i = some j) :
    findJob (updateJobStatus q i st em res now) i = some (applyUpdate j st em res now) := by
  rw [updateJobStatus, hfind]
  exact findJob_setJob q i j _ hfind rfl

/-- The job stored under the processed id after one `process_job` call, as
a pure function of the job found there before the call. -/
def processJobResult (j : Job) (outcome : Except String Dict) (now : Nat) : Job :=
  let job1 := { j with attempts := j.attempts + 1 }
  let job2 := applyUpdate job1 JobStatus.processing none none now
  match routeHandler job1.type outcome with
  | Except.ok result => applyUpdate job2 JobStatus.completed none (some result) now
  | Except.error msg =>
    if job1.attempts < job1.maxRetries then
      applyUpdate (applyUpdate job2 JobStatus.retrying (some msg) none now)
        JobStatus.pending none none now
    else
      applyUpdate job2 JobStatus.failed (some msg) none now

/-- One `process_job` call on the job stored under `i` leaves
`processJobResult` of that job stored under `i`. -/
theorem findJob_processJob (q : JobQueue) (i : Nat) (outcome : Except String Dict)
    (now : Nat) (j : Job) (hfind : findJob q i = some j) :
    findJob (processJob q i outcome now).1 i = some (processJobResult j outcome now) := by
  unfold processJob processJobResult
  rw [hfind]
  dsimp only
  have h1 : findJob (setJob q { j with attempts := j.attempts + 1 }) i =
      some { j with attempts := j.attempts + 1 } :=
    findJob_setJob q i j _ hfind rfl
  have h2 := findJob_update _ i JobStatus.processing none none now _ h1
  cases houtcome : routeHandler { j with attempts := j.attempts + 1 }.type outcome with
  | ok result =>
    exact findJob_update _ i JobStatus.completed none (some result) now _ h2
  | error msg =>
    dsimp only
    by_cases hretry : { j with attempts := j.attempts + 1 }.attempts <
        { j with attempts := j.attempts + 1 }.maxRetries
    · rw [if_pos hretry, if_pos hretry]
      have h3 := findJob_update _ i JobStatus.retrying (some msg) none now _ h2
      exact findJob_update _ i JobStatus.pending none none now _ h3
    · rw [if_neg hretry, if_neg hretry]
      exact findJob_update _ i JobStatus.failed (some msg) none now _ h2

/-- Explicit form of one failing `process_job` attempt on a job with a
registered type and a non-empty error message: the attempt counter rises
by one; below `max_retries` the job ends back in PENDING with the error
recorded, otherwise it ends FAILED with `completed_at` set. -/
theorem processJobResult_error (j : Job) (msg : String) (now : Nat)
    (hty : j.type ∈ registeredTypes) (hmsg : msg ≠ "") :
    processJobResult j (Except.error msg) now =
      if j.attempts + 1 < j.maxRetries then
        { j with
          attempts := j.attempts + 1, status := JobStatus.pending,
          errorMessage := some msg,
          startedAt := (if j.startedAt = none then some now else j.startedAt) }
      else
        { j with
          attempts := j.attempts + 1, status := JobStatus.failed,
          errorMessage := some msg,
          startedAt := (if j.startedAt = none then some now else j.startedAt),
          completedAt := some now } := by
  have hroute : routeHandler j.type (Except.error msg) = Except.error msg := by
    simp [routeHandler, hty]
  simp only [processJobResult]
  dsimp only
  rw [hroute]
  dsimp only
  split
  · simp [applyUpdate, truthyStr, truthyDict, hmsg]
  · simp [applyUpdate, truthyStr, truthyDict, hmsg]

/-- Explicit form of one successful `process_job` attempt on a job with a
registered type whose handler returned a non-empty result: the job ends
COMPLETED, the result is stored, `completed_at` is set — and
`error_message` keeps whatever value it had before the attempt. -/
theorem processJobResult_ok (j : Job) (res : Dict) (now : Nat)
    (hty : j.type ∈ registeredTypes) (hres : res ≠ []) :
    processJobResult j (Except.ok res) now =
      { j with
        attempts := j.attempts + 1, status := JobStatus.completed,
        result := some res,
        startedAt := (if j.startedAt = none then some now else j.startedAt),
        completedAt := some now } := by
  have hroute : routeHandler j.type (Except.ok res) = Except.ok res := by
    simp [routeHandler, hty]
  simp only [processJobResult]
  dsimp only
  rw [hroute]
  dsimp only
  simp [applyUpdate, truthyStr, truthyDict, hres]

/-- Invariant of repeatedly processing an always-failing job: starting
from a pending stored job whose attempt budget is not yet exhausted, after
`k` further failing attempts (with `attempts + k` still within the
budget) the stored job has `attempts + k` attempts and is PENDING while
strictly below `max_retries`, FAILED the moment it reaches it. -/
theorem runAlwaysFail_inv (msg : String) (hmsg : msg ≠ "") (now : Nat) :
    ∀ (k : Nat) (q : JobQueue) (i : Nat) (j : Job), findJob q i = some j →
      j.type ∈ registeredTypes → j.status = JobStatus.pending →
      j.attempts < j.maxRetries → j.attempts + k ≤ j.maxRetries →
      ∃ j', findJob (runAlwaysFail q i msg now k) i = some j' ∧
        j'.type = j.type ∧ j'.maxRetries = j.maxRetries ∧
        j'.attempts = j.attempts + k ∧
        j'.status =
          (if j.attempts + k < j.maxRetries then JobStatus.pending
           else JobStatus.failed) := by
  intro k
  induction k with
  | zero =>
    intro q i j hfind hty hst hlt hle
    refine ⟨j, hfind, rfl, rfl, rfl, ?_⟩
    rw [if_pos (by omega)]
    exact hst
  | succ k ih =>
    intro q i j hfind hty hst hlt hle
    have hstep := findJob_processJob q i (Except.error msg) now j hfind
    rw [processJobResult_error j msg now hty hmsg] at hstep
    by_cases hc : j.attempts + 1 < j.maxRetries
    · rw [if_pos hc] at hstep
      obtain ⟨j', hfind', hty', hmax', hatt', hst'⟩ :=
        ih (processJob q i (Except.error msg) now).1 i _ hstep hty rfl hc
          (show j.attempts + 1 + k ≤ j.maxRetries by omega)
      have hty2 : j'.type = j.type := hty'
      have hmax2 : j'.maxRetries = j.maxRetries := hmax'
      have hatt2 : j'.attempts = j.attempts + 1 + k := hatt'
      have hst2 : j'.status =
          (if j.attempts + 1 + k < j.maxRetries then JobStatus.pending
           else JobStatus.failed) := hst'
      refine ⟨j', ?_, hty2, hmax2, by omega, ?_⟩
      · rw [runAlwaysFail]
        exact hfind'
      · rw [hst2]
        have heq : j.attempts + 1 + k = j.attempts + (k + 1) := by omega
        rw [heq]
    · rw [if_neg hc] at hstep
      have hk0 : k = 0 := by omega
      subst hk0
      refine ⟨{ j with
          attempts := j.attempts + 1, status := JobStatus.failed,
          errorMessage := some msg,
          startedAt := (if j.startedAt = none then some now else j.startedAt),
          completedAt := some now }, ?_, rfl, rfl, ?_, ?_⟩
      · rw [runAlwaysFail, runAlwaysFail]
        exact hstep
      · show j.attempts + 1 = j.attempts + (0 + 1)
        omega
      · rw [if_neg (show ¬(j.attempts + (0 + 1) < j.maxRetries) by omega)]

/-! ### Claim C1 -/

/-- A fresh queue holding one pending `generate_report` job with
`max_retries = 1`, admitted with fresh id 7 at time 0. -/
def qRetry1 : JobQueue :=
  (addJob ⟨[]⟩ "generate_report" [] JobPriority.normal 1 7 0).1

/-- Counterexample to C1 as stated: with `maxRetries = 1` and a handler
that fails on every attempt, the job is already FAILED after one single
execution attempt — `attempts = 1 = maxRetries`, not
`maxRetries + 1 = 2`. -/
theorem failed_attempts_counterexample :
    (findJob (runAlwaysFail qRetry1 7 "boom" 1 1) 7).map
      (fun j => (j.status, j.attempts, j.maxRetries)) =
      some (JobStatus.failed, 1, 1) ∧ (1 : Nat) ≠ 1 + 1 := by
  constructor
  · decide
  · decide

/-- C1 (amended): for a stored pending job with a registered type,
`attempts = 0` and `maxRetries = N ≥ 1`, whose handler fails on every
attempt with a non-empty message, the job is still PENDING with
`attempts = k` after any `k < N` failing attempts, and after the `N`-th
attempt it is FAILED with `attempts = N`: the terminal state is reached
after exactly `maxRetries` execution attempts and `attempts` at FAILED
equals `maxRetries`, not `maxRetries + 1`. -/
theorem failed_attempts_eq_maxRetries (q : JobQueue) (i now N : Nat)
    (msg : String) (j : Job) (hfind : findJob q i = some j)
    (hty : j.type ∈ registeredTypes) (hst : j.status = JobStatus.pending)
    (ha0 : j.attempts = 0) (hN : j.maxRetries = N) (hN1 : 1 ≤ N)
    (hmsg : msg ≠ "") :
    (∀ k, k < N → ∃ j', findJob (runAlwaysFail q i msg now k) i = some j' ∧
        j'.attempts = k ∧ j'.status = JobStatus.pending) ∧
    (∃ j', findJob (runAlwaysFail q i msg now N) i = some j' ∧
        j'.attempts = N ∧ j'.maxRetries = N ∧ j'.status = JobStatus.failed) := by
  constructor
  · intro k hk
    obtain ⟨j', h1, -, -, h4, h5⟩ :=
      runAlwaysFail_inv msg hmsg now k q i j hfind hty hst (by omega) (by omega)
    exact ⟨j', h1, by omega, by rw [h5, if_pos (by omega)]⟩
  · obtain ⟨j', h1, -, h3, h4, h5⟩ :=
      runAlwaysFail_inv msg hmsg now N q i j hfind hty hst (by omega) (by omega)
    exact ⟨j', h1, by omega, by omega, by rw [h5, if_neg (by omega)]⟩

/-- A fresh queue holding one pending `generate_report` job with
`max_retries = 2`, admitted with fresh id 7 at time 0. -/
def qRetry2 : JobQueue :=
  (addJob ⟨[]⟩ "generate_report" [] JobPriority.normal 2 7 0).1

/-- The job `qRetry2` stores under id 7. -/
def jobRetry2 : Job :=
  { id := 7, type := "generate_report", payload := [],
    status := JobStatus.pending, priority := JobPriority.normal, attempts := 0,
    maxRetries := 2, errorMessage := none, result := none, createdAt := 0,
    startedAt := none, completedAt := none }

/-- Witness for the amended C1 at `N = 2`: pending with 0 and 1 attempts,
FAILED with exactly 2 attempts after the second failure. -/
theorem failed_attempts_eq_maxRetries_witness :
    (∀ k, k < 2 → ∃ j', findJob (runAlwaysFail qRetry2 7 "boom" 1 k) 7 = some j' ∧
        j'.attempts = k ∧ j'.status = JobStatus.pending) ∧
    (∃ j', findJob (runAlwaysFail qRetry2 7 "boom" 1 2) 7 = some j' ∧
        j'.attempts = 2 ∧ j'.maxRetries = 2 ∧ j'.status = JobStatus.failed) :=
  failed_attempts_eq_maxRetries qRetry2 7 1 2 "boom" jobRetry2 (by decide)
    (by decide) rfl rfl rfl (by omega) (by decide)

/-! ### Claim C3 -/

/-- Counterexample to C3 as stated: `add_job` called with the unregistered
type "bogus" does not fail and surfaces no error — it stores the job as
PENDING with 0 attempts and returns the fresh identifier. -/
theorem addJob_unregistered_counterexample :
    ("bogus" ∉ registeredTypes) ∧
    (addJob ⟨[]⟩ "bogus" [] JobPriority.normal 3 1 0).2 = 1 ∧
    (findJob (addJob ⟨[]⟩ "bogus" [] JobPriority.normal 3 1 0).1 1).map
      (fun j => (j.status, j.attempts)) = some (JobStatus.pending, 0) := by
  refine ⟨by decide, rfl, by decide⟩

/-- C3 (amended): `add_job` performs no handler-registration check and
never fails: for every job type — registered or not — it appends a fresh
PENDING job with 0 attempts (no execution) and returns the fresh id.  An
unregistered type is detected only later, inside `process_job`, where the
routing step raises `Unknown job type`, which enters the retry state
machine instead of reaching the admission caller. -/
theorem addJob_always_succeeds (q : JobQueue) (ty : String) (payload : Dict)
    (prio : JobPriority) (mr fresh now : Nat)
    (hfresh : ∀ j ∈ q.jobs, j.id ≠ fresh) :
    (addJob q ty payload prio mr fresh now).2 = fresh ∧
    (addJob q ty payload prio mr fresh now).1.jobs =
      q.jobs ++
        [{ id := fresh, type := ty, payload := payload,
           status := JobStatus.pending, priority := prio, attempts := 0,
           maxRetries := mr, errorMessage := none, result := none,
           createdAt := now, startedAt := none, completedAt := none }] ∧
    (ty ∉ registeredTypes → ∀ out, routeHandler ty out =
      Except.error ("Unknown job type: " ++ ty)) := by
  refine ⟨rfl, ?_, ?_⟩
  · have hany : (q.jobs.any (fun k => k.id == fresh)) = false := by
      rw [List.any_eq_false]
      intro k hk
      simpa using hfresh k hk
    rw [addJob]
    dsimp only
    rw [dictInsert, if_neg (by rw [hany]; exact Bool.false_ne_true)]
  · intro h out
    rw [routeHandler, if_neg h]

/-- Witness for the amended C3 on an empty queue and the unregistered type
"bogus". -/
theorem addJob_always_succeeds_witness :
    (addJob ⟨[]⟩ "bogus" [] JobPriority.low 2 5 3).2 = 5 ∧
    (addJob ⟨[]⟩ "bogus" [] JobPriority.low 2 5 3).1.jobs =
      [] ++
        [{ id := 5, type := "bogus", payload := [],
           status := JobStatus.pending, priority := JobPriority.low,
           attempts := 0, maxRetries := 2, errorMessage := none,
           result := none, createdAt := 3, startedAt := none,
           completedAt := none }] ∧
    ("bogus" ∉ registeredTypes → ∀ out, routeHandler "bogus" out =
      Except.error ("Unknown job type: " ++ "bogus")) :=
  addJob_always_succeeds ⟨[]⟩ "bogus" [] JobPriority.low 2 5 3 (by simp)

/-! ### Claim C4 -/

/-- A fresh queue holding one pending `generate_report` job with
`max_retries = 3`, admitted with fresh id 7 at time 0. -/
def qC4 : JobQueue :=
  (addJob ⟨[]⟩ "generate_report" [] JobPriority.normal 3 7 0).1

/-- `qC4` after one failing attempt: the job is back to PENDING with the
failure message recorded. -/
def qC4fail : JobQueue := (processJob qC4 7 (Except.error "boom") 1).1

/-- `qC4fail` after a successful attempt: the job is COMPLETED. -/
def qC4done : JobQueue :=
  (processJob qC4fail 7 (Except.ok [("report_generated", PyVal.str "true")]) 2).1

/-- Counterexample to C4 as stated: a job that failed once and then
succeeded is COMPLETED with its result stored — but `errorMessage` still
holds the old failure text instead of being absent. -/
theorem completed_errorMessage_counterexample :
    (findJob qC4done 7).map (fun j => (j.status, j.errorMessage, j.result)) =
      some (JobStatus.completed, some "boom",
        some [("report_generated", PyVal.str "true")]) := by
  decide

/-- C4 (amended): a successful `process_job` attempt on a stored job with
a registered type and a truthy handler result leaves the job COMPLETED
with the result present and `completed_at` set — but `update_job_status`
never clears `error_message`, so it keeps exactly the value it had before
the attempt (the last failure text, when an earlier attempt failed). -/
theorem completed_keeps_errorMessage (q : JobQueue) (i now : Nat) (res : Dict)
    (j : Job) (hfind : findJob q i = some j) (hty : j.type ∈ registeredTypes)
    (hres : res ≠ []) :
    ∃ j', findJob (processJob q i (Except.ok res) now).1 i = some j' ∧
      j'.status = JobStatus.completed ∧ j'.result = some res ∧
      j'.completedAt = some now ∧ j'.errorMessage = j.errorMessage := by
  have hstep := findJob_processJob q i (Except.ok res) now j hfind
  rw [processJobResult_ok j res now hty hres] at hstep
  exact ⟨_, hstep, rfl, rfl, rfl, rfl⟩

/-- The job `qC4fail` stores under id 7: pending again, one attempt spent,
`errorMessage` holding the first failure. -/
def jobC4fail : Job :=
  { id := 7, type := "generate_report", payload := [],
    status := JobStatus.pending, priority := JobPriority.normal, attempts := 1,
    maxRetries := 3, errorMessage := some "boom", result := none,
    createdAt := 0, startedAt := some 1, completedAt := none }

/-- Witness for the amended C4: completing the previously-failed job keeps
`errorMessage = some "boom"` while the status is COMPLETED. -/
theorem completed_keeps_errorMessage_witness :
    ∃ j', findJob qC4done 7 = some j' ∧
      j'.status = JobStatus.completed ∧
      j'.result = some [("report_generated", PyVal.str "true")] ∧
      j'.completedAt = some 2 ∧ j'.errorMessage = some "boom" :=
  completed_keeps_errorMessage qC4fail 7 2
    [("report_generated", PyVal.str "true")] jobC4fail (by decide) (by decide)
    (by decide)

/-! ### Claim C5 -/

/-- C5 (amended): the native-text stage's output is accepted — returned
without running OCR — iff the stripped embedded text is strictly longer
than 50 characters; when the stripped length is at most 50 (including
exactly 50) every page is rasterized at the fixed 300 DPI and the
per-page OCR outputs are concatenated in page order. -/
theorem extractTextFromPdf_threshold (pages : List (String × String)) :
    (50 < (pyStrip (nativeText pages)).length →
      extractTextFromPdf pages = (nativeText pages, false)) ∧
    ((pyStrip (nativeText pages)).length ≤ 50 →
      extractTextFromPdf pages = (ocrPdfText pages, true)) ∧
    ocrDpi = 300 := by
  refine ⟨?_, ?_, rfl⟩
  · intro h
    have hne : nativeText pages ≠ "" := by
      intro he
      rw [he] at h
      exact absurd h (by decide)
    rw [extractTextFromPdf]
    exact if_pos ⟨hne, h⟩
  · intro h
    rw [extractTextFromPdf]
    exact if_neg (fun hc => absurd hc.2 (by omega))

/-- Fifty identical non-whitespace characters: an embedded text layer of
length exactly 50. -/
def fiftyChars : String := String.mk (List.replicate 50 'a')

/-- Counterexample to C5's "at least 50 characters never invokes OCR"
part: a PDF whose embedded text layer holds exactly 50 characters (so at
least 50) still falls through to the OCR stage. -/
theorem pdf_fifty_chars_counterexample :
    fiftyChars.length = 50 ∧
    (pyStrip (nativeText [(fiftyChars, "OCR TEXT")])).length = 50 ∧
    (extractTextFromPdf [(fiftyChars, "OCR TEXT")]).2 = true ∧
    (extractTextFromPdf [(fiftyChars, "OCR TEXT")]).1 = "OCR TEXT" ++ "\n" :=
  ⟨by decide, by decide, by decide, by decide⟩

/-- Witness for the amended C5: with 52 embedded characters the native
text is returned and the OCR flag stays off. -/
theorem extractTextFromPdf_threshold_witness :
    extractTextFromPdf [(fiftyChars ++ "XY", "OCR TEXT")] =
      (nativeText [(fiftyChars ++ "XY", "OCR TEXT")], false) :=
  (extractTextFromPdf_threshold [(fiftyChars ++ "XY", "OCR TEXT")]).1 (by decide)

/-! ### Claim C6 -/

/-- Counterexample to C6 as stated: "abcdefghij" has exactly 10
non-whitespace characters — it does not exceed 10 — yet the pipeline does
not fail with the no-extractable-text error: it proceeds to the
structuring stage on that text. -/
theorem min_content_counterexample :
    nonWsCount "abcdefghij" = 10 ∧
    processInvoiceFromText false (fun _ => none) (Except.error "") "abcdefghij" =
      Except.ok (extractWithRegex "abcdefghij") :=
  ⟨by decide, by decide⟩

/-- C6 (amended): the pipeline fails with the no-extractable-text error
iff the stripped extracted text is shorter than 10 characters — the code
measures `len(text.strip())`, which counts interior whitespace, not the
number of non-whitespace characters, and proceeds at exactly 10; when it
proceeds, it hands exactly the same text to the structuring stage, which
is not invoked otherwise. -/
theorem processInvoiceFromText_threshold (g : Bool) (jp : String → Option Dict)
    (resp : Except String String) (text : String) :
    (processInvoiceFromText g jp resp text =
        Except.error PipeErr.noExtractableText ↔ (pyStrip text).length < 10) ∧
    (10 ≤ (pyStrip text).length →
      processInvoiceFromText g jp resp text =
        Except.ok (extractInvoiceData g jp resp text)) := by
  have hproceed : 10 ≤ (pyStrip text).length →
      processInvoiceFromText g jp resp text =
        Except.ok (extractInvoiceData g jp resp text) := by
    intro h
    have hcond : ¬(text = "" ∨ (pyStrip text).length < 10) := by
      rintro (he | hl)
      · rw [he] at h
        exact absurd h (by decide)
      · omega
    rw [processInvoiceFromText]
    exact if_neg hcond
  refine ⟨⟨?_, ?_⟩, hproceed⟩
  · intro h
    by_contra hlen
    rw [hproceed (by omega)] at h
    cases h
  · intro h
    rw [processInvoiceFromText]
    exact if_pos (Or.inr h)

/-- Witness for the amended C6: on a text whose stripped length exceeds
10 the pipeline proceeds to structuring. -/
theorem processInvoiceFromText_threshold_witness :
    processInvoiceFromText false (fun _ => none) (Except.error "")
      "Invoice #1001 Total: $250.00" =
      Except.ok (extractInvoiceData false (fun _ => none) (Except.error "")
        "Invoice #1001 Total: $250.00") :=
  (processInvoiceFromText_threshold false (fun _ => none) (Except.error "")
    "Invoice #1001 Total: $250.00").2 (by decide)

/-! ### Claim C7 -/

/-- C7: whenever the AI stage fails — the provider call raises, or the
stripped, fence-stripped response fails to parse as JSON —
`_extract_with_gemini` returns exactly the regex-fallback result on the
same text instead of propagating the error. -/
theorem gemini_failure_falls_back (jsonParse : String → Option Dict)
    (providerResp : Except String String) (text : String)
    (h : ∀ r, providerResp = Except.ok r →
      jsonParse (stripCodeFence (pyStrip r)) = none) :
    extractWithGemini jsonParse providerResp text = extractWithRegex text := by
  cases providerResp with
  | error e => rfl
  | ok r =>
    have hp := h r rfl
    show (match jsonParse (stripCodeFence (pyStrip r)) with
      | some d => d
      | none => extractWithRegex text) = extractWithRegex text
    rw [hp]

/-- Witness for C7: an unparseable provider response falls back to the
regex result on the same text. -/
theorem gemini_failure_falls_back_witness :
    extractWithGemini (fun _ => none) (Except.ok "not json")
      "Invoice #1001 Total: $250.00" =
      extractWithRegex "Invoice #1001 Total: $250.00" :=
  gemini_failure_falls_back (fun _ => none) (Except.ok "not json")
    "Invoice #1001 Total: $250.00" (fun _ _ => rfl)

/-! ### Claim C8 -/

/-- C8: with the AI stage disabled, structuring the text
"Invoice #1001 Total: $250.00" goes through the regex fallback and yields
invoice_number "1001", total_amount 250.00 and currency "USD"; the date
field, which no pattern matches, stays None, and vendor_name is never
produced by the regex stage. -/
theorem regex_scenario_eval :
    extractInvoiceData false (fun _ => none) (Except.error "AI disabled")
      "Invoice #1001 Total: $250.00" =
      [ ("vendor_name", PyVal.null)
      , ("invoice_number", PyVal.str "1001")
      , ("invoice_date", PyVal.null)
      , ("total_amount", PyVal.num 250)
      , ("currency", PyVal.str "USD") ] ∧
    extractInvoiceData false (fun _ => none) (Except.error "AI disabled")
      "Invoice #1001 Total: $250.00" =
      extractWithRegex "Invoice #1001 Total: $250.00" :=
  ⟨by decide, rfl⟩

/-! ### Claim C9 -/

/-- C9: `_extract_text_from_file` fails with the unsupported-format error
exactly for (lowercased) extensions that are neither ".pdf" nor one of
the supported raster image extensions; for every supported extension it
never produces that error, whatever the collaborators return. -/
theorem extractTextFromFile_unsupported (ext : String) (doc : DocBytes) :
    (ext ∉ (".pdf" :: imageExts) →
      extractTextFromFile ext doc =
        Except.error (ExtractErr.unsupportedFormat
          ("Unsupported file type: " ++ ext))) ∧
    (ext ∈ (".pdf" :: imageExts) →
      ∀ s, extractTextFromFile ext doc ≠
        Except.error (ExtractErr.unsupportedFormat s)) := by
  constructor
  · intro h
    have h1 : ¬(ext = ".pdf") := fun he => h (by rw [he]; exact List.mem_cons_self _ _)
    have h2 : ¬(ext ∈ imageExts) := fun hm => h (List.mem_cons_of_mem _ hm)
    rw [extractTextFromFile, if_neg h1, if_neg h2]
  · intro h s
    rcases List.mem_cons.mp h with he | hm
    · rw [extractTextFromFile, if_pos he]
      cases doc.pdfPages <;> simp
    · by_cases he : ext = ".pdf"
      · rw [extractTextFromFile, if_pos he]
        cases doc.pdfPages <;> simp
      · rw [extractTextFromFile, if_neg he, if_pos hm]
        cases doc.imageOcr <;> simp

/-- Witness for C9: ".docx" is rejected with the unsupported-format error,
".pdf" never is. -/
theorem extractTextFromFile_unsupported_witness :
    extractTextFromFile ".docx" ⟨Except.ok [], Except.ok ""⟩ =
      Except.error (ExtractErr.unsupportedFormat
        ("Unsupported file type: " ++ ".docx")) ∧
    ∀ s, extractTextFromFile ".pdf" ⟨Except.ok [], Except.ok ""⟩ ≠
      Except.error (ExtractErr.unsupportedFormat s) :=
  ⟨(extractTextFromFile_unsupported ".docx" ⟨Except.ok [], Except.ok ""⟩).1
      (by decide),
   (extractTextFromFile_unsupported ".pdf" ⟨Except.ok [], Except.ok ""⟩).2
      (by decide)⟩

end InvoiceAI
